import Mathlib

/-
Verification development for the two-phase multiple-choice test generator and
grader implemented in randomizer.py. The definitions below are a shallow
embedding of the core logic: question bank entries, variant generation
(question and answer shuffling), the randomness score used to select the
best variants, the answer-key report, the grading pass of correct_tests,
and the statistics passes analyze_results and analyze_questions.

Machine reals from numpy are modelled as exact rationals; the only genuinely
real-valued quantity is the population standard deviation, modelled with
Real.sqrt. Randomness (random.shuffle) is modelled by a Fisher-Yates style
extraction driven by an arbitrary stream of natural numbers, so theorems
quantify over every possible draw.
-/

namespace MCR

/-- One answer option of a question: its text and the is-correct flag. -/
structure Answer where
  text : String
  is_correct : Bool
deriving DecidableEq

/-- A question as loaded from one Excel sheet by load_questions_from_excel:
text, originating sheet name, ordered answers, and the three optional
per-question score overrides (Punteggio corretta / errata / non data),
None when the column is absent or unparsable. -/
structure Question where
  question_text : String
  sheet_name : String
  answers : List Answer
  punteggio_corretta : Option ℚ
  punteggio_errata : Option ℚ
  punteggio_non_data : Option ℚ
deriving DecidableEq

/-- One test variant: stringified 1-based id and its question list. -/
structure Variant where
  variant_id : String
  questions : List Question
deriving DecidableEq

/-- The configuration values relevant to grading, as read by _load_config:
default scores for correct, wrong and blank answers, the passing threshold
and the choice label format. -/
structure Config where
  default_correct_score : ℚ
  default_wrong_score : ℚ
  default_no_answer_score : ℚ
  passing_threshold : ℚ
  choice_label_format : String
deriving DecidableEq

/-- Models random.shuffle as used by generate_test_variants: a Fisher-Yates
style extraction. Each step consumes one number from the stream, reduces it
modulo the remaining length (Python draws an index already in range), moves
that element to the output and recurses on the remainder. If the stream runs
out the remaining elements are kept in order. Every output is a permutation
of the input; which permutation depends on the stream. -/
def shuffleWith : List α → List Nat → List α
  | [], _ => []
  | a :: t, [] => a :: t
  | a :: t, r :: rs =>
    let j := r % (a :: t).length
    (a :: t).getD j a :: shuffleWith ((a :: t).eraseIdx j) rs

/-- Models generate_test_variants: if no questions are loaded the result is
the empty list; otherwise, for i in range(num_variants), deep-copy the bank,
shuffle the question order, then shuffle the answer list of each question.
The random stream for the question shuffle of variant i is qR i, and for the
answers of the question at position p of variant i it is aR i p. -/
def generate_test_variants (bank : List Question) (num_variants : Nat)
    (qR : Nat → List Nat) (aR : Nat → Nat → List Nat) : List Variant :=
  if bank.isEmpty then []
  else
    (List.range num_variants).map (fun i =>
      { variant_id := toString (i + 1),
        questions := (shuffleWith bank (qR i)).enum.map
          (fun p => { p.2 with answers := shuffleWith p.2.answers (aR i p.1) }) })

/-- Index of the first answer flagged is-correct, defaulting to 0, i.e.
next((i for i, ans in enumerate(answers) if ans.get(is-correct)), 0). -/
def correctIndex (answers : List Answer) : Nat :=
  (answers.findIdx? (fun a => a.is_correct)).getD 0

/-- Fraction of question positions whose occupant differs from the original
bank order, comparing question texts positionwise, as in select_best_variants. -/
def questionOrderScore (orig : List String) (v : Variant) : ℚ :=
  ((orig.zip (v.questions.map (fun q => q.question_text))).countP
    (fun p => p.1 != p.2) : ℚ) / (orig.length : ℚ)

/-- Normalized position of the correct answer of one question:
correct-index divided by (answer-count minus 1), and 0 for at most one answer. -/
def answerOrderScoreQ (q : Question) : ℚ :=
  if 1 < q.answers.length then
    (correctIndex q.answers : ℚ) / ((q.answers.length : ℚ) - 1)
  else 0

/-- Mean of the per-question answer order scores of a variant, 0 when the
variant has no questions (np.mean guard in the source). -/
def answerOrderScore (v : Variant) : ℚ :=
  let s := v.questions.map answerOrderScoreQ
  if s.isEmpty then 0 else s.sum / (s.length : ℚ)

/-- The per-variant selection score of select_best_variants: the average of
the question order score and the answer order score. -/
def variantScore (orig : List String) (v : Variant) : ℚ :=
  (questionOrderScore orig v + answerOrderScore v) / 2

/-- The scored candidate list of select_best_variants after the stable
descending sort on the score component. Python list.sort(reverse=True) is a
stable sort keeping insertion order among equal keys, modelled by mergeSort
with the comparison (second score less-or-equal first score). -/
def scoredSorted (orig : List String) (pool : List Variant) : List (ℚ × Variant) :=
  (pool.map (fun v => (variantScore orig v, v))).mergeSort
    (fun a b => decide (b.1 ≤ a.1))

/-- Models select_best_variants: sort the scored candidates descending and
keep the first num_variants. The source function also receives the
randomness-metrics dictionary from evaluate_randomness_of_variants, but its
body never reads it, so that argument is omitted here. -/
def select_best_variants (orig : List String) (pool : List Variant)
    (num_variants : Nat) : List Variant :=
  ((scoredSorted orig pool).take num_variants).map (fun p => p.2)

/-- Label of the answer at index idx under the configured
choice_label_format, as in generate_answer_keys_report: upper case letters,
lower case letters, or 1-based numbers. -/
def labelFor (style : String) (idx : Nat) : String :=
  if style = "letters_upper" then String.mk [Char.ofNat (Char.toNat 'A' + idx)]
  else if style = "letters_lower" then String.mk [Char.ofNat (Char.toNat 'a' + idx)]
  else toString (idx + 1)

/-- The per-variant answer key mapping built by generate_answer_keys_report:
stringified 1-based question number to the label of the correct answer. -/
def variantKeyMapping (style : String) (v : Variant) : List (String × String) :=
  v.questions.enum.map
    (fun p => (toString (p.1 + 1), labelFor style (correctIndex p.2.answers)))

/-- The per-variant question mapping built by generate_answer_keys_report:
stringified 1-based question number to the source sheet name. -/
def variantQuestionMapping (v : Variant) : List (String × String) :=
  v.questions.enum.map (fun p => (toString (p.1 + 1), p.2.sheet_name))

/-- The content of question_mappings.json: variant-id to answer-key mapping
and variant-id to question mapping. -/
structure MappingsData where
  variant_answer_keys : List (String × List (String × String))
  variant_question_mappings : List (String × List (String × String))
deriving DecidableEq

/-- The data that generate_answer_keys_report stores and serializes: both
mappings, built by iterating the selected variants. The source function
unconditionally ends with json.dump of this data into question_mappings.json;
there is no guard on the variant list being empty. -/
def generate_answer_keys_report (style : String) (variants : List Variant) :
    MappingsData :=
  { variant_answer_keys := variants.map (fun v => (v.variant_id, variantKeyMapping style v)),
    variant_question_mappings := variants.map (fun v => (v.variant_id, variantQuestionMapping v)) }

/-- The variants selected by the phase 1 pipeline in main: generate the
candidate pool from the bank, then select the best num_variants by score.
The original question order is the list of bank question texts, as recorded
by load_questions_from_excel. The randomness-metrics evaluation step between
the two calls only prints and is omitted. -/
def phase1_selected_variants (bank : List Question) (num_potential num_variants : Nat)
    (qR : Nat → List Nat) (aR : Nat → Nat → List Nat) : List Variant :=
  select_best_variants (bank.map (fun q => q.question_text))
    (generate_test_variants bank num_potential qR aR) num_variants

/-- The answer-key persistence of phase 1, as an optional written file
content: none would mean the file is not written. In the source, phase 1
always reaches generate_answer_keys_report (the preceding PDF generation
loop cannot raise) and that function writes unconditionally, so the result
is always some content. -/
def phase1_mappings_file (style : String) (bank : List Question)
    (num_potential num_variants : Nat)
    (qR : Nat → List Nat) (aR : Nat → Nat → List Nat) : Option MappingsData :=
  some (generate_answer_keys_report style
    (phase1_selected_variants bank num_potential num_variants qR aR))

/-- Outcome of one answer cell during grading: correct, wrong or blank. -/
inductive Outcome
  | correct
  | wrong
  | blank
deriving DecidableEq

/-- Python str.strip(): remove leading and trailing whitespace characters.
Implemented over the character list so that it evaluates by kernel
reduction. -/
def pyStrip (s : String) : String :=
  String.mk (((s.data.dropWhile Char.isWhitespace).reverse.dropWhile
    Char.isWhitespace).reverse)

/-- Python str.upper() restricted to the ASCII labels used by the program. -/
def pyUpper (s : String) : String :=
  String.mk (s.data.map Char.toUpper)

/-- The stripped text of an answer cell, where a missing or NaN cell is
modelled as none: str(row.get(col, "")).strip(). -/
def stripCell (cell : Option String) : String :=
  pyStrip (cell.getD "")

/-- The blank test of correct_tests: pd.isna(cell) or the stripped text is
empty. -/
def isBlankCell (cell : Option String) : Bool :=
  cell.isNone || (stripCell cell == "")

/-- Classification of one cell against the correct label of the question:
blank when the cell is missing or strips to empty, correct on a
case-insensitive match of the stripped answer, wrong otherwise. -/
def classify (cell : Option String) (correctLetter : String) : Outcome :=
  if isBlankCell cell then Outcome.blank
  else if pyUpper (stripCell cell) == pyUpper correctLetter then Outcome.correct
  else Outcome.wrong

/-- The three weights used for a question during grading: the per-question
override when the question was found and the override is present, else the
configured default. qd is none when the sheet is absent from the
question-data map (then question_data.get always yields None). -/
def questionWeights (cfg : Config) (qd : Option Question) : ℚ × ℚ × ℚ :=
  ((qd.bind (fun q => q.punteggio_corretta)).getD cfg.default_correct_score,
   (qd.bind (fun q => q.punteggio_errata)).getD cfg.default_wrong_score,
   (qd.bind (fun q => q.punteggio_non_data)).getD cfg.default_no_answer_score)

/-- The answer detail recorded per question for a student: sheet name, the
recorded response (the stripped answer, or the marker string for blank),
the correct label, and the points awarded. -/
structure AnswerDetail where
  sheet : String
  response : String
  correct : String
  points : ℚ
deriving DecidableEq

/-- The per-student accumulator of the correct_tests loop over answer
columns: counts, scores, maximum possible score and the answer details. -/
structure RowTally where
  correct_count : Nat
  wrong_count : Nat
  blank_count : Nat
  correct_score : ℚ
  wrong_score : ℚ
  blank_score : ℚ
  max_possible_score : ℚ
  student_answers : List (String × AnswerDetail)
deriving DecidableEq

/-- The zero-initialized per-student accumulator. -/
def initTally : RowTally :=
  { correct_count := 0, wrong_count := 0, blank_count := 0,
    correct_score := 0, wrong_score := 0, blank_score := 0,
    max_possible_score := 0, student_answers := [] }

/-- Per-question tally across all students: counts of correct, wrong and
blank responses, the value type of the question_stats defaultdict. -/
structure QStat where
  correct : Nat
  wrong : Nat
  blank : Nat
deriving DecidableEq

/-- Increment the field of a per-question tally selected by the outcome. -/
def bumpQStat (s : QStat) (o : Outcome) : QStat :=
  match o with
  | Outcome.correct => { s with correct := s.correct + 1 }
  | Outcome.wrong => { s with wrong := s.wrong + 1 }
  | Outcome.blank => { s with blank := s.blank + 1 }

/-- Update of the question_stats defaultdict: bump the entry of the sheet,
inserting a fresh zero entry at the end on first access, preserving
insertion order like a Python dict. -/
def bumpStats : List (String × QStat) → String → Outcome → List (String × QStat)
  | [], sheet, o => [(sheet, bumpQStat ⟨0, 0, 0⟩ o)]
  | (s, q) :: rest, sheet, o =>
    if s == sheet then (s, bumpQStat q o) :: rest
    else (s, q) :: bumpStats rest sheet o

/-- One step of the correct_tests loop over answer columns, tally part.
A column is graded only when it is present in both the answer-key mapping
and the question mapping of the variant of the student; otherwise the
accumulator is unchanged (the column is ignored entirely). The source
updates this tally and the global question statistics in the same loop
body under the same branch conditions; the two updates touch disjoint
state and are modelled as the two projections gradeCellT and gradeCellS. -/
def gradeCellT (cfg : Config) (km qm : List (String × String))
    (ql : String → Option Question) (t : RowTally) (c : String × Option String) :
    RowTally :=
  match km.lookup c.1, qm.lookup c.1 with
  | some correctLetter, some sheet =>
    let w := questionWeights cfg (ql sheet)
    let t := { t with max_possible_score := t.max_possible_score + w.1 }
    match classify c.2 correctLetter with
    | Outcome.blank =>
      { t with blank_count := t.blank_count + 1,
               blank_score := t.blank_score + w.2.2,
               student_answers := t.student_answers ++
                 [(c.1, { sheet := sheet, response := "blank",
                          correct := correctLetter, points := w.2.2 })] }
    | Outcome.correct =>
      { t with correct_count := t.correct_count + 1,
               correct_score := t.correct_score + w.1,
               student_answers := t.student_answers ++
                 [(c.1, { sheet := sheet, response := stripCell c.2,
                          correct := correctLetter, points := w.1 })] }
    | Outcome.wrong =>
      { t with wrong_count := t.wrong_count + 1,
               wrong_score := t.wrong_score + w.2.1,
               student_answers := t.student_answers ++
                 [(c.1, { sheet := sheet, response := stripCell c.2,
                          correct := correctLetter, points := w.2.1 })] }
  | _, _ => t

/-- One step of the correct_tests loop over answer columns, question
statistics part: bump the tally of the sheet of the column by the outcome,
when the column is present in both registry mappings. -/
def gradeCellS (km qm : List (String × String)) (stats : List (String × QStat))
    (c : String × Option String) : List (String × QStat) :=
  match km.lookup c.1, qm.lookup c.1 with
  | some correctLetter, some sheet => bumpStats stats sheet (classify c.2 correctLetter)
  | _, _ => stats

/-- The outcome assigned to an answer column by correct_tests, none when the
column is absent from either registry mapping and hence ignored. -/
def cellOutcome (km qm : List (String × String)) (c : String × Option String) :
    Option Outcome :=
  match km.lookup c.1, qm.lookup c.1 with
  | some correctLetter, some _ => some (classify c.2 correctLetter)
  | _, _ => none

/-- A graded student record as stored in test_results by correct_tests,
with the three analytics fields added later by analyze_results kept as
options, initially none. -/
structure GradedResult where
  correct_count : Nat
  wrong_count : Nat
  blank_count : Nat
  correct_score : ℚ
  wrong_score : ℚ
  blank_score : ℚ
  total_score : ℚ
  max_possible_score : ℚ
  percentage : ℚ
  answers : List (String × AnswerDetail)
  variant_id : String
  z_score : Option ℝ
  percentile : Option ℚ
  stanine : Option String

/-- Rounding to two decimal places, modelling round(x, 2). Python uses
round-half-even on binary floats; no theorem below exercises a tie at the
third decimal, so the floor-based rounding of Mathlib is used. -/
def round2 (x : ℚ) : ℚ :=
  ((round (x * 100) : ℤ) : ℚ) / 100

/-- Finalization of a student record from the finished tally: total score,
percentage with the division-by-zero guard of the source, and the analytics
fields not yet computed. -/
def finishRow (t : RowTally) (vid : String) : GradedResult :=
  let total := t.correct_score + t.wrong_score + t.blank_score
  { correct_count := t.correct_count, wrong_count := t.wrong_count,
    blank_count := t.blank_count, correct_score := t.correct_score,
    wrong_score := t.wrong_score, blank_score := t.blank_score,
    total_score := total, max_possible_score := t.max_possible_score,
    percentage := if 0 < t.max_possible_score
      then round2 (total / t.max_possible_score * 100) else 0,
    answers := t.student_answers, variant_id := vid,
    z_score := none, percentile := none, stanine := none }

/-- One row of the student answers spreadsheet: student id, variant id and
the answer columns (all columns other than student_id and variant_id) in
sheet order, each with its optionally missing cell value. -/
structure SubmissionRow where
  student_id : String
  variant_id : String
  cells : List (String × Option String)
deriving DecidableEq

/-- Assignment into the test_results dict: overwrite the entry of the key
in place when present, else append, preserving Python dict semantics. -/
def setResult : List (String × GradedResult) → String → GradedResult →
    List (String × GradedResult)
  | [], sid, g => [(sid, g)]
  | (s, g0) :: rest, sid, g =>
    if s == sid then (sid, g) :: rest
    else (s, g0) :: setResult rest sid g

/-- The mutable state threaded through correct_tests: the per-student
results dict, the per-question statistics, and the variants warned about
(variant id and student id of each warning printed for an unknown variant). -/
structure GradingState where
  test_results : List (String × GradedResult)
  question_stats : List (String × QStat)
  warnings : List (String × String)

/-- Whether the variant id of a row (stripped) is present in both loaded
registry mappings; rows failing this are skipped with a warning. -/
def knownVariant (keys qmaps : List (String × List (String × String)))
    (r : SubmissionRow) : Bool :=
  (keys.lookup (pyStrip r.variant_id)).isSome && (qmaps.lookup (pyStrip r.variant_id)).isSome

/-- The question-data lookup used for score overrides: the questions of the
first variant in self.variants whose id matches, turned into a dict keyed
by sheet name (later questions overwrite earlier ones, hence the reverse),
and the empty dict when no variant matches. -/
def questionDataLookup (variants : List Variant) (vid : String) :
    String → Option Question :=
  fun sheet =>
    (((((variants.find? (fun v => v.variant_id == vid)).map
        (fun v => v.questions)).getD []).map
        (fun q => (q.sheet_name, q))).reverse).lookup sheet

/-- One iteration of the correct_tests loop over submission rows: grade the
row when its variant id is known, storing the finished record under the
student id and accumulating the question statistics; otherwise record a
warning and leave results and statistics unchanged. -/
def processRow (cfg : Config) (variants : List Variant)
    (keys qmaps : List (String × List (String × String)))
    (st : GradingState) (r : SubmissionRow) : GradingState :=
  let vid := pyStrip r.variant_id
  match keys.lookup vid, qmaps.lookup vid with
  | some km, some qm =>
    let ql := questionDataLookup variants vid
    { test_results := setResult st.test_results r.student_id
        (finishRow (r.cells.foldl (gradeCellT cfg km qm ql) initTally) vid),
      question_stats := r.cells.foldl (gradeCellS km qm) st.question_stats,
      warnings := st.warnings }
  | _, _ =>
    { st with warnings := st.warnings ++ [(vid, r.student_id)] }

/-- Models correct_tests: fold the row processing over all submission rows,
starting from empty results, empty question statistics and no warnings. -/
def correct_tests (cfg : Config) (variants : List Variant)
    (keys qmaps : List (String × List (String × String)))
    (rows : List SubmissionRow) : GradingState :=
  rows.foldl (processRow cfg variants keys qmaps) ⟨[], [], []⟩

/-- The record correct_tests produces for one row with a known variant id,
independent of the other rows: grade its cells against the mappings of its
variant. For a known row the getD defaults are never taken. -/
def gradeOfRow (cfg : Config) (variants : List Variant)
    (keys qmaps : List (String × List (String × String)))
    (r : SubmissionRow) : GradedResult :=
  let vid := pyStrip r.variant_id
  let km := (keys.lookup vid).getD []
  let qm := (qmaps.lookup vid).getD []
  finishRow (r.cells.foldl (gradeCellT cfg km qm (questionDataLookup variants vid)) initTally) vid

/-- Models the phase 2 wiring of main: the registry mappings are loaded from
question_mappings.json and the question bank is re-loaded from the Excel
file into questions_data, but self.variants keeps its initial empty value
from the constructor, and correct_tests reads self.variants. The loaded
bank parameter is therefore unused, exactly as in the source. -/
def phase2_correct_tests (cfg : Config)
    (keys qmaps : List (String × List (String × String)))
    (_bank : List Question) (rows : List SubmissionRow) : GradingState :=
  correct_tests cfg [] keys qmaps rows

/-- np.mean of a list of rationals: sum divided by length. -/
def listMean (l : List ℚ) : ℚ :=
  l.sum / (l.length : ℚ)

/-- Population variance as computed under np.std: mean squared deviation
from the mean. -/
def listVariancePop (l : List ℚ) : ℚ :=
  ((l.map (fun x => (x - listMean l) ^ 2)).sum) / (l.length : ℚ)

/-- np.std of the scores: square root of the population variance. -/
noncomputable def npStd (l : List ℚ) : ℝ :=
  Real.sqrt ((listVariancePop l : ℚ) : ℝ)

/-- Rounding a real to two decimal places, modelling round(x, 2) applied to
the float statistics. -/
noncomputable def round2R (x : ℝ) : ℝ :=
  ((round (x * 100) : ℤ) : ℝ) / 100

/-- The z-score of a student in analyze_results: (score minus mean) over the
standard deviation, with the degenerate guard returning 0 when the standard
deviation is 0. -/
noncomputable def zScoreOf (scores : List ℚ) (x : ℚ) : ℝ :=
  if npStd scores = 0 then 0
  else (((x : ℚ) : ℝ) - ((listMean scores : ℚ) : ℝ)) / npStd scores

/-- scipy.stats.percentileofscore with the default rank kind: counts of
scores strictly below and weakly below, plus one when the score is present,
scaled to a percentage. -/
def percentileofscore (scores : List ℚ) (x : ℚ) : ℚ :=
  let left := scores.countP (fun a => decide (a < x))
  let right := scores.countP (fun a => decide (a ≤ x))
  ((left : ℚ) + (right : ℚ) + (if left < right then 1 else 0)) * 50 / (scores.length : ℚ)

/-- np.percentile with linear interpolation: sort ascending, locate the
fractional position (length minus 1) times q over 100, and interpolate
between the two neighbouring order statistics. -/
def npPercentile (l : List ℚ) (q : ℚ) : ℚ :=
  let s := l.mergeSort (fun a b => decide (a ≤ b))
  if s.isEmpty then 0
  else
    let pos := ((l.length : ℚ) - 1) * q / 100
    let i := Nat.floor pos
    let lo := s.getD i 0
    let hi := s.getD (i + 1) lo
    lo + (pos - (i : ℚ)) * (hi - lo)

/-- np.median equals the 50th percentile under linear interpolation. -/
def npMedian (l : List ℚ) : ℚ :=
  npPercentile l 50

/-- Minimum of a list of scores (the source only calls it on a non-empty
list; 0 is an arbitrary value for the empty list). -/
def listMin : List ℚ → ℚ
  | [] => 0
  | a :: t => t.foldl min a

/-- Maximum of a list of scores, same convention as listMin. -/
def listMax : List ℚ → ℚ
  | [] => 0
  | a :: t => t.foldl max a

/-- The stanine band of a score: the percentile cut points 4, 11, 23, 40,
60, 77, 89, 96 of the score distribution delimit the nine buckets from
F minus up to S plus. -/
def stanineOf (scores : List ℚ) (x : ℚ) : String :=
  if x < npPercentile scores 4 then "F-"
  else if x < npPercentile scores 11 then "F"
  else if x < npPercentile scores 23 then "E"
  else if x < npPercentile scores 40 then "D"
  else if x < npPercentile scores 60 then "C"
  else if x < npPercentile scores 77 then "B"
  else if x < npPercentile scores 89 then "A"
  else if x < npPercentile scores 96 then "S"
  else "S+"

/-- The aggregate statistics dict analysis_results as filled by
analyze_results. -/
structure AnalysisResults where
  num_students : Nat
  average_score : ℚ
  median_score : ℚ
  std_deviation : ℝ
  min_score : ℚ
  max_score : ℚ
  quartiles : List ℚ
  passing_threshold : ℚ
  pass_rate : ℚ
  avg_correct_score : ℚ
  avg_wrong_score : ℚ
  avg_blank_score : ℚ
  avg_correct_count : ℚ
  avg_wrong_count : ℚ
  avg_blank_count : ℚ

/-- The aggregate statistics computed by analyze_results over the graded
results, following the source line by line: descriptive statistics of the
total scores, the pass rate against the percentage threshold, quartiles,
and the mean scores and counts per response type. -/
noncomputable def computeAnalysisResults (th : ℚ)
    (rs : List (String × GradedResult)) : AnalysisResults :=
  let scores := rs.map (fun p => p.2.total_score)
  let percentages := rs.map (fun p => p.2.percentage)
  let threshold := th * 100
  { num_students := scores.length,
    average_score := round2 (listMean scores),
    median_score := round2 (npMedian scores),
    std_deviation := round2R (npStd scores),
    min_score := round2 (listMin scores),
    max_score := round2 (listMax scores),
    quartiles := [round2 (npPercentile scores 25), round2 (npPercentile scores 50),
      round2 (npPercentile scores 75)],
    passing_threshold := threshold,
    pass_rate := if percentages.isEmpty then 0
      else round2 (((percentages.countP (fun p => decide (threshold ≤ p))) : ℚ) /
        (percentages.length : ℚ) * 100),
    avg_correct_score := round2 (listMean (rs.map (fun p => p.2.correct_score))),
    avg_wrong_score := round2 (listMean (rs.map (fun p => p.2.wrong_score))),
    avg_blank_score := round2 (listMean (rs.map (fun p => p.2.blank_score))),
    avg_correct_count := round2 (listMean (rs.map (fun p => (p.2.correct_count : ℚ)))),
    avg_wrong_count := round2 (listMean (rs.map (fun p => (p.2.wrong_count : ℚ)))),
    avg_blank_count := round2 (listMean (rs.map (fun p => (p.2.blank_count : ℚ)))) }

/-- The per-student update of analyze_results: set z-score, percentile and
stanine from the cohort scores, leaving every other field unchanged. -/
noncomputable def applyStudentAnalytics (scores : List ℚ) (r : GradedResult) :
    GradedResult :=
  { r with z_score := some (round2R (zScoreOf scores r.total_score)),
           percentile := some (round2 (percentileofscore scores r.total_score)),
           stanine := some (stanineOf scores r.total_score) }

/-- Per-question analytics entry: the base counts from grading plus the
derived metrics analyze_questions adds, kept as options because the source
stores them as additional dict keys. -/
structure QAnalytics where
  base : QStat
  total_answers : Option Nat
  correct_pct : Option ℚ
  wrong_pct : Option ℚ
  blank_pct : Option ℚ
  difficulty : Option ℚ
  discrimination : Option ℚ
deriving DecidableEq

/-- The conversion self.question_analytics = dict(question_stats) at the end
of correct_tests: base counts only, no derived metrics yet. -/
def toAnalytics (stats : List (String × QStat)) : List (String × QAnalytics) :=
  stats.map (fun p =>
    (p.1,
     { base := p.2, total_answers := none, correct_pct := none,
       wrong_pct := none, blank_pct := none, difficulty := none,
       discrimination := none }))

/-- The student list sorted by total score descending, stable, as produced
by the Python sort with reverse=True inside analyze_questions. -/
def sortStudentsByScoreDesc (rs : List (String × GradedResult)) :
    List (String × GradedResult) :=
  rs.mergeSort (fun a b => decide (b.2.total_score ≤ a.2.total_score))

/-- Whether a graded student answered the question of the given sheet
correctly, as tested inside the discrimination loop: some recorded answer
on that sheet whose response is not the blank marker and matches the
correct label case-insensitively. -/
def answeredSheetCorrectly (sheet : String) (r : GradedResult) : Bool :=
  r.answers.any (fun p =>
    p.2.sheet == sheet && p.2.response != "blank" &&
      pyUpper p.2.response == pyUpper p.2.correct)

/-- The update of one question entry by analyze_questions: skip entries with
no recorded answers, otherwise fill the response percentages, the
difficulty index 1 minus the correct rate, and the discrimination index
from the upper and lower 27 percent groups (at least one student each). -/
def analyzeQuestionEntry (rs : List (String × GradedResult)) (sheet : String)
    (qa : QAnalytics) : QAnalytics :=
  let st := qa.base
  let total := st.correct + st.wrong + st.blank
  if total = 0 then qa
  else
    let sorted := sortStudentsByScoreDesc rs
    let n := sorted.length
    let upper_n := max 1 (Nat.floor ((n : ℚ) * (27 / 100)))
    let lower_n := max 1 (Nat.floor ((n : ℚ) * (27 / 100)))
    let upper_correct := (sorted.take upper_n).countP
      (fun p => answeredSheetCorrectly sheet p.2)
    let lower_correct := (sorted.drop (n - lower_n)).countP
      (fun p => answeredSheetCorrectly sheet p.2)
    let p_upper := if 0 < upper_n then (upper_correct : ℚ) / (upper_n : ℚ) else 0
    let p_lower := if 0 < lower_n then (lower_correct : ℚ) / (lower_n : ℚ) else 0
    { base := st,
      total_answers := some total,
      correct_pct := some (round2 ((st.correct : ℚ) / (total : ℚ) * 100)),
      wrong_pct := some (round2 ((st.wrong : ℚ) / (total : ℚ) * 100)),
      blank_pct := some (round2 ((st.blank : ℚ) / (total : ℚ) * 100)),
      difficulty := some (round2 (1 - (st.correct : ℚ) / (total : ℚ))),
      discrimination := some (round2 (p_upper - p_lower)) }

/-- The in-memory state read and written by the two analysis passes:
the passing threshold from the configuration, the graded results, the
question analytics and the aggregate analysis results (none before
analyze_results has run). -/
structure AnalyzerState where
  passing_threshold : ℚ
  test_results : List (String × GradedResult)
  question_analytics : List (String × QAnalytics)
  analysis_results : Option AnalysisResults

/-- Models analyze_results: on an empty result set return unchanged after
printing; otherwise store the aggregate statistics and update every student
record with z-score, percentile and stanine computed from the cohort of
total scores. -/
noncomputable def analyze_results (s : AnalyzerState) : AnalyzerState :=
  if s.test_results.isEmpty then s
  else
    let scores := s.test_results.map (fun p => p.2.total_score)
    { s with
      analysis_results := some (computeAnalysisResults s.passing_threshold s.test_results),
      test_results := s.test_results.map
        (fun p => (p.1, applyStudentAnalytics scores p.2)) }

/-- Models analyze_questions: on empty question analytics return unchanged;
otherwise update every entry in place with its derived metrics. -/
def analyze_questions (s : AnalyzerState) : AnalyzerState :=
  if s.question_analytics.isEmpty then s
  else
    { s with
      question_analytics := s.question_analytics.map
        (fun p => (p.1, analyzeQuestionEntry s.test_results p.1 p.2)) }

theorem getD_cons_eraseIdx_perm :
    ∀ (l : List α) (j : Nat) (d : α), j < l.length →
      (l.getD j d :: l.eraseIdx j).Perm l
  | a :: t, 0, d, _ => by simp
  | a :: t, j + 1, d, h => by
    have ih := getD_cons_eraseIdx_perm t j d (by simpa using h)
    simp only [List.getD_cons_succ, List.eraseIdx_cons_succ]
    exact (List.Perm.swap a _ _).trans (ih.cons a)

theorem shuffleWith_perm : ∀ (l : List α) (rs : List Nat), (shuffleWith l rs).Perm l
  | [], rs => by cases rs <;> simp [shuffleWith]
  | a :: t, [] => by simp [shuffleWith]
  | a :: t, r :: rs => by
    rw [shuffleWith]
    exact ((shuffleWith_perm _ rs).cons _).trans
      (getD_cons_eraseIdx_perm (a :: t) (r % (a :: t).length) a
        (Nat.mod_lt _ (by simp)))

theorem sheet_names_of_variant_questions (l : List Question) (f : Nat × Question → List Answer) :
    ((l.enum.map (fun p => { p.2 with answers := f p })).map (fun q => q.sheet_name))
      = l.map (fun q => q.sheet_name) := by
  rw [List.map_map]
  have h1 : ((fun q => q.sheet_name) ∘ fun p : Nat × Question => { p.2 with answers := f p })
      = ((fun q => q.sheet_name) ∘ Prod.snd) := rfl
  rw [h1, ← List.map_map, List.enum_map_snd]

/-- C8: for a non-empty question bank, every generated variant is a
permutation of the bank: its question count equals the bank size and the
multiset of source sheet names (stated as a list permutation together with
equality of all multiplicities) equals that of the bank, with no
duplication and no omission, for every possible random draw. -/
theorem C8_variant_permutes_bank (bank : List Question) (n : Nat)
    (qR : Nat → List Nat) (aR : Nat → Nat → List Nat) (hbank : bank ≠ []) :
    ∀ v ∈ generate_test_variants bank n qR aR,
      v.questions.length = bank.length ∧
      (v.questions.map (fun q => q.sheet_name)).Perm (bank.map (fun q => q.sheet_name)) ∧
      ∀ s : String, (v.questions.map (fun q => q.sheet_name)).count s
        = (bank.map (fun q => q.sheet_name)).count s := by
  intro v hv
  have hne : bank.isEmpty = false := by
    cases bank with
    | nil => exact absurd rfl hbank
    | cons a t => rfl
  rw [generate_test_variants, hne] at hv
  simp only [Bool.false_eq_true, if_false, List.mem_map] at hv
  obtain ⟨i, _, rfl⟩ := hv
  have hperm : ((shuffleWith bank (qR i)).map (fun q => q.sheet_name)).Perm
      (bank.map (fun q => q.sheet_name)) :=
    (shuffleWith_perm bank (qR i)).map (fun q => q.sheet_name)
  constructor
  · simp only [List.length_map, List.enum_length]
    exact (shuffleWith_perm bank (qR i)).length_eq
  · constructor
    · rw [sheet_names_of_variant_questions]
      exact hperm
    · intro s
      rw [sheet_names_of_variant_questions]
      exact hperm.count_eq s

def exC8bank : List Question :=
  [{ question_text := "q one", sheet_name := "Alg", answers := [⟨"a", true⟩, ⟨"b", false⟩],
     punteggio_corretta := none, punteggio_errata := none, punteggio_non_data := none },
   { question_text := "q two", sheet_name := "Geo", answers := [⟨"c", true⟩],
     punteggio_corretta := none, punteggio_errata := none, punteggio_non_data := none }]

/-- Witness for C8 at a concrete two-sheet bank and a concrete random draw. -/
theorem C8_witness :
    exC8bank ≠ [] ∧
    ∀ v ∈ generate_test_variants exC8bank 2 (fun _ => [1, 0]) (fun _ _ => [1]),
      v.questions.length = exC8bank.length ∧
      (v.questions.map (fun q => q.sheet_name)).Perm (exC8bank.map (fun q => q.sheet_name)) ∧
      ∀ s : String, (v.questions.map (fun q => q.sheet_name)).count s
        = (exC8bank.map (fun q => q.sheet_name)).count s :=
  ⟨by decide,
   C8_variant_permutes_bank exC8bank 2 (fun _ => [1, 0]) (fun _ _ => [1]) (by decide)⟩

theorem scoreDescLE_trans (a b c : ℚ × Variant)
    (h1 : decide (b.1 ≤ a.1) = true) (h2 : decide (c.1 ≤ b.1) = true) :
    decide (c.1 ≤ a.1) = true := by
  simp only [decide_eq_true_eq] at *
  exact le_trans h2 h1

theorem scoreDescLE_total (a b : ℚ × Variant) :
    (decide (b.1 ≤ a.1) || decide (a.1 ≤ b.1)) = true := by
  simp only [Bool.or_eq_true, decide_eq_true_eq]
  exact le_total b.1 a.1

theorem scoredSorted_mem_fst (orig : List String) (pool : List Variant) :
    ∀ p ∈ scoredSorted orig pool, p.1 = variantScore orig p.2 := by
  intro p hp
  rw [scoredSorted, List.mem_mergeSort, List.mem_map] at hp
  obtain ⟨v, _, rfl⟩ := hp
  rfl

/-- C3: for a non-empty candidate pool (from a non-empty bank order),
select_best_variants keeps exactly the highest scored candidates: the
result has length min n P; the stable-sorted scored list is ordered by
score descending and carries exactly the variantScore of each candidate;
the selected variants together with the dropped ones are a permutation of
the pool and every selected score dominates every dropped score; and two
pool candidates with equal scores appear in the sorted order in their
insertion order. -/
theorem C3_select_best_variants (orig : List String) (pool : List Variant) (n : Nat)
    (_hpool : pool ≠ []) (_horig : orig ≠ []) :
    (select_best_variants orig pool n).length = min n pool.length ∧
    (scoredSorted orig pool).Pairwise (fun a b => b.1 ≤ a.1) ∧
    (∀ p ∈ scoredSorted orig pool, p.1 = variantScore orig p.2) ∧
    (select_best_variants orig pool n ++
      ((scoredSorted orig pool).drop n).map (fun p => p.2)).Perm pool ∧
    (∀ v ∈ select_best_variants orig pool n,
      ∀ w ∈ ((scoredSorted orig pool).drop n).map (fun p => p.2),
        variantScore orig w ≤ variantScore orig v) ∧
    (∀ v w : Variant, [v, w].Sublist pool →
      variantScore orig v = variantScore orig w →
      [v, w].Sublist ((scoredSorted orig pool).map (fun p => p.2))) := by
  have hsortedB : (scoredSorted orig pool).Pairwise
      (fun a b : ℚ × Variant => decide (b.1 ≤ a.1) = true) :=
    List.sorted_mergeSort scoreDescLE_trans scoreDescLE_total _
  have hsorted : (scoredSorted orig pool).Pairwise (fun a b => b.1 ≤ a.1) :=
    hsortedB.imp (fun h => by simpa using h)
  have hmemfst := scoredSorted_mem_fst orig pool
  have hperm : (scoredSorted orig pool).Perm
      (pool.map (fun v => (variantScore orig v, v))) :=
    List.mergeSort_perm _ _
  refine ⟨?_, hsorted, hmemfst, ?_, ?_, ?_⟩
  · simp [select_best_variants, scoredSorted]
  · have hsplit := List.take_append_drop n (scoredSorted orig pool)
    have h1 : select_best_variants orig pool n ++
        ((scoredSorted orig pool).drop n).map (fun p => p.2)
        = (scoredSorted orig pool).map (fun p => p.2) := by
      rw [select_best_variants, ← List.map_append, hsplit]
    rw [h1]
    have h2 : ((pool.map (fun v => (variantScore orig v, v))).map (fun p => p.2)) = pool := by
      rw [List.map_map]
      exact List.map_id' pool
    have := hperm.map (fun p : ℚ × Variant => p.2)
    rw [h2] at this
    exact this
  · intro v hv w hw
    rw [select_best_variants, List.mem_map] at hv
    rw [List.mem_map] at hw
    obtain ⟨p, hp, rfl⟩ := hv
    obtain ⟨q, hq, rfl⟩ := hw
    have hcross : ∀ a ∈ (scoredSorted orig pool).take n,
        ∀ b ∈ (scoredSorted orig pool).drop n, b.1 ≤ a.1 := by
      have := hsorted
      rw [← List.take_append_drop n (scoredSorted orig pool), List.pairwise_append] at this
      exact this.2.2
    have h := hcross p hp q hq
    rw [hmemfst p (List.mem_of_mem_take hp), hmemfst q (List.mem_of_mem_drop hq)] at h
    exact h
  · intro v w hsub heq
    have hmap : [(variantScore orig v, v), (variantScore orig w, w)].Sublist
        (pool.map (fun x => (variantScore orig x, x))) := by
      simpa using hsub.map (fun x => (variantScore orig x, x))
    have hab : decide ((variantScore orig w, w).1 ≤ (variantScore orig v, v).1) = true := by
      simp [heq]
    have hst := List.pair_sublist_mergeSort scoreDescLE_trans scoreDescLE_total hab hmap
    have := hst.map (fun p : ℚ × Variant => p.2)
    simpa [scoredSorted] using this

def exC3orig : List String := ["q one", "q two"]

def exC3pool : List Variant :=
  [{ variant_id := "1", questions :=
      [{ question_text := "q one", sheet_name := "Alg",
         answers := [⟨"a", true⟩, ⟨"b", false⟩],
         punteggio_corretta := none, punteggio_errata := none, punteggio_non_data := none },
       { question_text := "q two", sheet_name := "Geo",
         answers := [⟨"c", false⟩, ⟨"d", true⟩],
         punteggio_corretta := none, punteggio_errata := none, punteggio_non_data := none }] },
   { variant_id := "2", questions :=
      [{ question_text := "q two", sheet_name := "Geo",
         answers := [⟨"d", true⟩, ⟨"c", false⟩],
         punteggio_corretta := none, punteggio_errata := none, punteggio_non_data := none },
       { question_text := "q one", sheet_name := "Alg",
         answers := [⟨"b", false⟩, ⟨"a", true⟩],
         punteggio_corretta := none, punteggio_errata := none, punteggio_non_data := none }] }]

/-- Witness for C3 at a concrete two-candidate pool. -/
theorem C3_witness :
    exC3pool ≠ [] ∧ exC3orig ≠ [] ∧
    ((select_best_variants exC3orig exC3pool 1).length = min 1 exC3pool.length ∧
     (scoredSorted exC3orig exC3pool).Pairwise (fun a b => b.1 ≤ a.1) ∧
     (∀ p ∈ scoredSorted exC3orig exC3pool, p.1 = variantScore exC3orig p.2) ∧
     (select_best_variants exC3orig exC3pool 1 ++
       ((scoredSorted exC3orig exC3pool).drop 1).map (fun p => p.2)).Perm exC3pool ∧
     (∀ v ∈ select_best_variants exC3orig exC3pool 1,
       ∀ w ∈ ((scoredSorted exC3orig exC3pool).drop 1).map (fun p => p.2),
         variantScore exC3orig w ≤ variantScore exC3orig v) ∧
     (∀ v w : Variant, [v, w].Sublist exC3pool →
       variantScore exC3orig v = variantScore exC3orig w →
       [v, w].Sublist ((scoredSorted exC3orig exC3pool).map (fun p => p.2)))) :=
  ⟨by decide, by decide,
   C3_select_best_variants exC3orig exC3pool 1 (by decide) (by decide)⟩

/-- C2 counterexample: with an empty question bank, phase 1 selects no
variants, yet the answer-key persistence file question_mappings.json is
still written (the write in generate_answer_keys_report is unconditional),
with empty mappings as content; the claim states it must not be written. -/
theorem C2_counterexample :
    phase1_selected_variants [] 10 1 (fun _ => []) (fun _ _ => []) = [] ∧
    phase1_mappings_file "letters_upper" [] 10 1 (fun _ => []) (fun _ _ => [])
      = some { variant_answer_keys := [], variant_question_mappings := [] } ∧
    phase1_mappings_file "letters_upper" [] 10 1 (fun _ => []) (fun _ _ => [])
      ≠ none := by
  have hsel : phase1_selected_variants [] 10 1 (fun _ => []) (fun _ _ => []) = [] := by
    simp [phase1_selected_variants, select_best_variants, scoredSorted,
      generate_test_variants]
  refine ⟨hsel, ?_, ?_⟩
  · rw [phase1_mappings_file, hsel]
    rfl
  · rw [phase1_mappings_file]
    exact Option.some_ne_none _

/-- C2 amended: whenever phase 1 variant generation and selection produce
no variants, the answer-key file is nevertheless written, and its content
is the pair of empty mappings (no variant entries, so no partial per-variant
state, but the write itself does happen). -/
theorem C2_amended_empty_selection_still_writes (style : String)
    (bank : List Question) (nP nV : Nat)
    (qR : Nat → List Nat) (aR : Nat → Nat → List Nat)
    (h : phase1_selected_variants bank nP nV qR aR = []) :
    phase1_mappings_file style bank nP nV qR aR
      = some { variant_answer_keys := [], variant_question_mappings := [] } := by
  rw [phase1_mappings_file, h]
  rfl

/-- Witness for the amended C2 at an empty bank. -/
theorem C2_witness :
    phase1_selected_variants [] 3 2 (fun _ => [0]) (fun _ _ => [0]) = [] ∧
    phase1_mappings_file "numbers" [] 3 2 (fun _ => [0]) (fun _ _ => [0])
      = some { variant_answer_keys := [], variant_question_mappings := [] } :=
  ⟨by simp [phase1_selected_variants, select_best_variants, scoredSorted,
      generate_test_variants],
   C2_amended_empty_selection_still_writes "numbers" [] 3 2 (fun _ => [0]) (fun _ _ => [0])
     (by simp [phase1_selected_variants, select_best_variants, scoredSorted,
       generate_test_variants])⟩

def exC1cfg : Config :=
  { default_correct_score := 4, default_wrong_score := 0,
    default_no_answer_score := 1, passing_threshold := 58 / 100,
    choice_label_format := "letters_upper" }

def exC1question : Question :=
  { question_text := "q one", sheet_name := "Alg",
    answers := [⟨"a", true⟩, ⟨"b", false⟩],
    punteggio_corretta := some 7, punteggio_errata := none,
    punteggio_non_data := none }

def exC1keys : List (String × List (String × String)) := [("1", [("1", "A")])]

def exC1qmaps : List (String × List (String × String)) := [("1", [("1", "Alg")])]

def exC1row : SubmissionRow :=
  { student_id := "s1", variant_id := "1", cells := [("1", some "A")] }

/-- C1: the claim holds inside correct_tests when self.variants carries the
selected variants (the per-question override 7 is applied), but in the
phase 2 wiring of main self.variants is never populated: the question data
map is built from the empty variant list, every override lookup misses, and
the student is scored with the configured default 4 instead of the override
7 carried by the bank row of the question. The bank loaded by phase 2 is
passed to the pipeline and ignored, as in the source. -/
theorem C1_phase2_override_ignored :
    exC1question.punteggio_corretta = some 7 ∧
    exC1cfg.default_correct_score = 4 ∧
    (((phase2_correct_tests exC1cfg exC1keys exC1qmaps [exC1question]
        [exC1row]).test_results.lookup "s1").map (fun g => g.total_score)) = some 4 ∧
    (((correct_tests exC1cfg [{ variant_id := "1", questions := [exC1question] }]
        exC1keys exC1qmaps [exC1row]).test_results.lookup "s1").map
          (fun g => g.total_score)) = some 7 := by
  have hcl : classify (some "A") "A" = Outcome.correct := by decide
  refine ⟨rfl, rfl, ?_, ?_⟩ <;>
    norm_num [phase2_correct_tests, correct_tests, processRow, questionDataLookup,
      gradeCellT, finishRow, initTally, setResult, hcl, stripCell, pyStrip,
      questionWeights, exC1cfg, exC1keys, exC1qmaps, exC1question,
      exC1row, List.lookup, round2]

theorem gradeCellT_correct_count (cfg : Config) (km qm : List (String × String))
    (ql : String → Option Question) (t : RowTally) (c : String × Option String) :
    (gradeCellT cfg km qm ql t c).correct_count
      = t.correct_count + (if cellOutcome km qm c = some Outcome.correct then 1 else 0) := by
  rw [gradeCellT, cellOutcome]
  rcases km.lookup c.1 with _ | L <;> rcases qm.lookup c.1 with _ | sheet <;>
    try simp
  rcases h : classify c.2 L <;> simp [h]

theorem gradeCellT_wrong_count (cfg : Config) (km qm : List (String × String))
    (ql : String → Option Question) (t : RowTally) (c : String × Option String) :
    (gradeCellT cfg km qm ql t c).wrong_count
      = t.wrong_count + (if cellOutcome km qm c = some Outcome.wrong then 1 else 0) := by
  rw [gradeCellT, cellOutcome]
  rcases km.lookup c.1 with _ | L <;> rcases qm.lookup c.1 with _ | sheet <;>
    try simp
  rcases h : classify c.2 L <;> simp [h]

theorem gradeCellT_blank_count (cfg : Config) (km qm : List (String × String))
    (ql : String → Option Question) (t : RowTally) (c : String × Option String) :
    (gradeCellT cfg km qm ql t c).blank_count
      = t.blank_count + (if cellOutcome km qm c = some Outcome.blank then 1 else 0) := by
  rw [gradeCellT, cellOutcome]
  rcases km.lookup c.1 with _ | L <;> rcases qm.lookup c.1 with _ | sheet <;>
    try simp
  rcases h : classify c.2 L <;> simp [h]

theorem gradeCellT_answers_fst (cfg : Config) (km qm : List (String × String))
    (ql : String → Option Question) (t : RowTally) (c : String × Option String) :
    (gradeCellT cfg km qm ql t c).student_answers.map Prod.fst
      = t.student_answers.map Prod.fst ++
        (if (cellOutcome km qm c).isSome then [c.1] else []) := by
  rw [gradeCellT, cellOutcome]
  rcases km.lookup c.1 with _ | L <;> rcases qm.lookup c.1 with _ | sheet <;>
    try simp
  rcases h : classify c.2 L <;> simp [h]

theorem foldl_gradeCellT_correct_count (cfg : Config) (km qm : List (String × String))
    (ql : String → Option Question) :
    ∀ (cells : List (String × Option String)) (t : RowTally),
      (cells.foldl (gradeCellT cfg km qm ql) t).correct_count
        = t.correct_count + cells.countP (fun c => cellOutcome km qm c == some Outcome.correct)
  | [], t => by simp
  | c :: cs, t => by
    rw [List.foldl_cons, foldl_gradeCellT_correct_count cfg km qm ql cs,
      gradeCellT_correct_count, List.countP_cons]
    simp only [beq_iff_eq]
    omega

theorem foldl_gradeCellT_wrong_count (cfg : Config) (km qm : List (String × String))
    (ql : String → Option Question) :
    ∀ (cells : List (String × Option String)) (t : RowTally),
      (cells.foldl (gradeCellT cfg km qm ql) t).wrong_count
        = t.wrong_count + cells.countP (fun c => cellOutcome km qm c == some Outcome.wrong)
  | [], t => by simp
  | c :: cs, t => by
    rw [List.foldl_cons, foldl_gradeCellT_wrong_count cfg km qm ql cs,
      gradeCellT_wrong_count, List.countP_cons]
    simp only [beq_iff_eq]
    omega

theorem foldl_gradeCellT_blank_count (cfg : Config) (km qm : List (String × String))
    (ql : String → Option Question) :
    ∀ (cells : List (String × Option String)) (t : RowTally),
      (cells.foldl (gradeCellT cfg km qm ql) t).blank_count
        = t.blank_count + cells.countP (fun c => cellOutcome km qm c == some Outcome.blank)
  | [], t => by simp
  | c :: cs, t => by
    rw [List.foldl_cons, foldl_gradeCellT_blank_count cfg km qm ql cs,
      gradeCellT_blank_count, List.countP_cons]
    simp only [beq_iff_eq]
    omega

theorem foldl_gradeCellT_answers_fst (cfg : Config) (km qm : List (String × String))
    (ql : String → Option Question) :
    ∀ (cells : List (String × Option String)) (t : RowTally),
      (cells.foldl (gradeCellT cfg km qm ql) t).student_answers.map Prod.fst
        = t.student_answers.map Prod.fst ++
          (cells.filter (fun c => (cellOutcome km qm c).isSome)).map Prod.fst
  | [], t => by simp
  | c :: cs, t => by
    rw [List.foldl_cons, foldl_gradeCellT_answers_fst cfg km qm ql cs,
      gradeCellT_answers_fst]
    rcases h : (cellOutcome km qm c).isSome with _ | _ <;>
      simp [List.filter_cons, h, List.append_assoc]

theorem countP_outcome_partition (km qm : List (String × String)) :
    ∀ cells : List (String × Option String),
      cells.countP (fun c => cellOutcome km qm c == some Outcome.correct)
        + cells.countP (fun c => cellOutcome km qm c == some Outcome.wrong)
        + cells.countP (fun c => cellOutcome km qm c == some Outcome.blank)
        = cells.countP (fun c => (cellOutcome km qm c).isSome)
  | [] => by simp
  | c :: cs => by
    have ih := countP_outcome_partition km qm cs
    rcases h : cellOutcome km qm c with _ | o
    · simp [List.countP_cons, h, ih]
    · rcases o <;> simp [List.countP_cons, h] <;> omega

theorem classify_eq_blank_iff (cell : Option String) (L : String) :
    classify cell L = Outcome.blank ↔ (cell = none ∨ stripCell cell = "") := by
  rw [classify, isBlankCell]
  rcases cell with _ | v
  · simp
  · simp only [Option.isNone_some, Bool.false_or]
    rcases h : (stripCell (some v) == "") with _ | _
    · simp only [Bool.false_eq_true, if_false]
      rw [beq_eq_false_iff_ne] at h
      rcases h2 : (pyUpper (stripCell (some v)) == pyUpper L) with _ | _ <;>
        simp [h]
    · rw [beq_iff_eq] at h
      simp [h]

theorem classify_eq_correct_iff (cell : Option String) (L : String) :
    classify cell L = Outcome.correct ↔
      (¬(cell = none ∨ stripCell cell = "") ∧ pyUpper (stripCell cell) = pyUpper L) := by
  rw [classify, isBlankCell]
  rcases cell with _ | v
  · simp
  · simp only [Option.isNone_some, Bool.false_or]
    rcases h : (stripCell (some v) == "") with _ | _
    · simp only [Bool.false_eq_true, if_false]
      rw [beq_eq_false_iff_ne] at h
      rcases h2 : (pyUpper (stripCell (some v)) == pyUpper L) with _ | _
      · rw [beq_eq_false_iff_ne] at h2
        simp [h, h2]
      · rw [beq_iff_eq] at h2
        simp [h, h2]
    · rw [beq_iff_eq] at h
      simp [h]

theorem classify_eq_wrong_iff (cell : Option String) (L : String) :
    classify cell L = Outcome.wrong ↔
      (¬(cell = none ∨ stripCell cell = "") ∧ pyUpper (stripCell cell) ≠ pyUpper L) := by
  rw [classify, isBlankCell]
  rcases cell with _ | v
  · simp
  · simp only [Option.isNone_some, Bool.false_or]
    rcases h : (stripCell (some v) == "") with _ | _
    · simp only [Bool.false_eq_true, if_false]
      rw [beq_eq_false_iff_ne] at h
      rcases h2 : (pyUpper (stripCell (some v)) == pyUpper L) with _ | _
      · rw [beq_eq_false_iff_ne] at h2
        simp [h, h2]
      · rw [beq_iff_eq] at h2
        simp [h, h2]
    · rw [beq_iff_eq] at h
      simp [h]

/-- C4: for a submission row with a known variant id, every answer column
is classified into exactly one of the three outcomes, the three counters of
the graded record count exactly the registry-present columns with the
respective outcome (so that the counters sum to the number of
registry-present columns), the recorded answer details list exactly the
registry-present columns (columns absent from the registry contribute to no
counter, in particular not to blank), and the classification is blank
exactly on a missing or whitespace-only cell, correct exactly on a
case-insensitive match of the stripped answer, and wrong otherwise. -/
theorem C4_outcome_classification (cfg : Config) (variants : List Variant)
    (keys qmaps : List (String × List (String × String))) (r : SubmissionRow)
    (_hk : knownVariant keys qmaps r = true) :
    ((gradeOfRow cfg variants keys qmaps r).correct_count
        = r.cells.countP (fun c => cellOutcome ((keys.lookup (pyStrip r.variant_id)).getD [])
            ((qmaps.lookup (pyStrip r.variant_id)).getD []) c == some Outcome.correct) ∧
      (gradeOfRow cfg variants keys qmaps r).wrong_count
        = r.cells.countP (fun c => cellOutcome ((keys.lookup (pyStrip r.variant_id)).getD [])
            ((qmaps.lookup (pyStrip r.variant_id)).getD []) c == some Outcome.wrong) ∧
      (gradeOfRow cfg variants keys qmaps r).blank_count
        = r.cells.countP (fun c => cellOutcome ((keys.lookup (pyStrip r.variant_id)).getD [])
            ((qmaps.lookup (pyStrip r.variant_id)).getD []) c == some Outcome.blank) ∧
      (gradeOfRow cfg variants keys qmaps r).correct_count
          + (gradeOfRow cfg variants keys qmaps r).wrong_count
          + (gradeOfRow cfg variants keys qmaps r).blank_count
        = r.cells.countP (fun c => (cellOutcome ((keys.lookup (pyStrip r.variant_id)).getD [])
            ((qmaps.lookup (pyStrip r.variant_id)).getD []) c).isSome) ∧
      (gradeOfRow cfg variants keys qmaps r).answers.map Prod.fst
        = (r.cells.filter (fun c => (cellOutcome ((keys.lookup (pyStrip r.variant_id)).getD [])
            ((qmaps.lookup (pyStrip r.variant_id)).getD []) c).isSome)).map Prod.fst) ∧
    (∀ (cell : Option String) (L : String),
      (classify cell L = Outcome.blank ↔ (cell = none ∨ stripCell cell = "")) ∧
      (classify cell L = Outcome.correct ↔
        (¬(cell = none ∨ stripCell cell = "") ∧ pyUpper (stripCell cell) = pyUpper L)) ∧
      (classify cell L = Outcome.wrong ↔
        (¬(cell = none ∨ stripCell cell = "") ∧ pyUpper (stripCell cell) ≠ pyUpper L))) := by
  constructor
  · rw [gradeOfRow]
    refine ⟨?_, ?_, ?_, ?_, ?_⟩
    · rw [show (finishRow ((r.cells.foldl (gradeCellT cfg ((keys.lookup (pyStrip r.variant_id)).getD [])
          ((qmaps.lookup (pyStrip r.variant_id)).getD [])
          (questionDataLookup variants (pyStrip r.variant_id))) initTally)) (pyStrip r.variant_id)).correct_count
        = ((r.cells.foldl (gradeCellT cfg ((keys.lookup (pyStrip r.variant_id)).getD [])
          ((qmaps.lookup (pyStrip r.variant_id)).getD [])
          (questionDataLookup variants (pyStrip r.variant_id))) initTally)).correct_count from rfl]
      rw [foldl_gradeCellT_correct_count]
      simp [initTally]
    · rw [show (finishRow ((r.cells.foldl (gradeCellT cfg ((keys.lookup (pyStrip r.variant_id)).getD [])
          ((qmaps.lookup (pyStrip r.variant_id)).getD [])
          (questionDataLookup variants (pyStrip r.variant_id))) initTally)) (pyStrip r.variant_id)).wrong_count
        = ((r.cells.foldl (gradeCellT cfg ((keys.lookup (pyStrip r.variant_id)).getD [])
          ((qmaps.lookup (pyStrip r.variant_id)).getD [])
          (questionDataLookup variants (pyStrip r.variant_id))) initTally)).wrong_count from rfl]
      rw [foldl_gradeCellT_wrong_count]
      simp [initTally]
    · rw [show (finishRow ((r.cells.foldl (gradeCellT cfg ((keys.lookup (pyStrip r.variant_id)).getD [])
          ((qmaps.lookup (pyStrip r.variant_id)).getD [])
          (questionDataLookup variants (pyStrip r.variant_id))) initTally)) (pyStrip r.variant_id)).blank_count
        = ((r.cells.foldl (gradeCellT cfg ((keys.lookup (pyStrip r.variant_id)).getD [])
          ((qmaps.lookup (pyStrip r.variant_id)).getD [])
          (questionDataLookup variants (pyStrip r.variant_id))) initTally)).blank_count from rfl]
      rw [foldl_gradeCellT_blank_count]
      simp [initTally]
    · rw [show ∀ t : RowTally, (finishRow t (pyStrip r.variant_id)).correct_count
          + (finishRow t (pyStrip r.variant_id)).wrong_count
          + (finishRow t (pyStrip r.variant_id)).blank_count
        = t.correct_count + t.wrong_count + t.blank_count from fun t => rfl]
      rw [foldl_gradeCellT_correct_count, foldl_gradeCellT_wrong_count,
        foldl_gradeCellT_blank_count]
      have h := countP_outcome_partition ((keys.lookup (pyStrip r.variant_id)).getD [])
        ((qmaps.lookup (pyStrip r.variant_id)).getD []) r.cells
      simpa [initTally] using h
    · rw [show ∀ t : RowTally, (finishRow t (pyStrip r.variant_id)).answers
        = t.student_answers from fun t => rfl]
      rw [foldl_gradeCellT_answers_fst]
      rfl
  · intro cell L
    exact ⟨classify_eq_blank_iff cell L, classify_eq_correct_iff cell L,
      classify_eq_wrong_iff cell L⟩

def exC4cfg : Config :=
  { default_correct_score := 4, default_wrong_score := 0,
    default_no_answer_score := 1, passing_threshold := 58 / 100,
    choice_label_format := "letters_upper" }

def exC4keys : List (String × List (String × String)) :=
  [("1", [("1", "A"), ("2", "B")])]

def exC4qmaps : List (String × List (String × String)) :=
  [("1", [("1", "Alg"), ("2", "Geo")])]

def exC4row : SubmissionRow :=
  { student_id := "s1", variant_id := "1",
    cells := [("1", some "a"), ("2", some " C "), ("3", some "B"), ("4", none)] }

/-- Witness for C4: a concrete row with a correct answer in different case,
a wrong answer, a column absent from the registry, and a missing cell also
absent from the registry. -/
theorem C4_witness :
    knownVariant exC4keys exC4qmaps exC4row = true ∧
    ((gradeOfRow exC4cfg [] exC4keys exC4qmaps exC4row).correct_count
      = exC4row.cells.countP (fun c =>
          cellOutcome ((exC4keys.lookup (pyStrip exC4row.variant_id)).getD [])
            ((exC4qmaps.lookup (pyStrip exC4row.variant_id)).getD []) c
              == some Outcome.correct)) :=
  ⟨by decide,
   (C4_outcome_classification exC4cfg [] exC4keys exC4qmaps exC4row (by decide)).1.1⟩

theorem setResult_lookup_self :
    ∀ (rs : List (String × GradedResult)) (sid : String) (g : GradedResult),
      (setResult rs sid g).lookup sid = some g
  | [], sid, g => by simp [setResult]
  | (s, g0) :: rest, sid, g => by
    rw [setResult]
    rcases h : (s == sid) with _ | _
    · rw [if_neg (by simp [h]), List.lookup_cons]
      have h2 : (sid == s) = false := by
        rw [beq_eq_false_iff_ne] at h ⊢
        exact fun he => h he.symm
      rw [h2]
      exact setResult_lookup_self rest sid g
    · rw [if_pos rfl]
      simp

theorem setResult_lookup_ne :
    ∀ (rs : List (String × GradedResult)) (sid g sid'), sid' ≠ sid →
      (setResult rs sid g).lookup sid' = rs.lookup sid'
  | [], sid, g, sid', h => by
    have h2 : (sid' == sid) = false := by
      rw [beq_eq_false_iff_ne]
      exact h
    simp [setResult, List.lookup_cons, h2]
  | (s, g0) :: rest, sid, g, sid', h => by
    rw [setResult]
    rcases hs : (s == sid) with _ | _
    · rw [if_neg (by simp [hs]), List.lookup_cons, List.lookup_cons]
      rcases hs2 : (sid' == s) with _ | _
      · exact setResult_lookup_ne rest sid g sid' h
      · rfl
    · have h2 : (sid' == sid) = false := by
        rw [beq_eq_false_iff_ne]
        exact h
      rw [beq_iff_eq] at hs
      subst hs
      rw [if_pos rfl, List.lookup_cons, List.lookup_cons, h2]

theorem processRow_known (cfg : Config) (variants : List Variant)
    (keys qmaps : List (String × List (String × String)))
    (st : GradingState) (r : SubmissionRow)
    (h : knownVariant keys qmaps r = true) :
    processRow cfg variants keys qmaps st r =
      { test_results := setResult st.test_results r.student_id
          (gradeOfRow cfg variants keys qmaps r),
        question_stats := r.cells.foldl
          (gradeCellS ((keys.lookup (pyStrip r.variant_id)).getD [])
            ((qmaps.lookup (pyStrip r.variant_id)).getD [])) st.question_stats,
        warnings := st.warnings } := by
  rw [knownVariant, Bool.and_eq_true, Option.isSome_iff_exists, Option.isSome_iff_exists] at h
  obtain ⟨⟨km, hk⟩, ⟨qm, hq⟩⟩ := h
  rw [processRow, gradeOfRow, hk, hq]
  rfl

theorem processRow_unknown (cfg : Config) (variants : List Variant)
    (keys qmaps : List (String × List (String × String)))
    (st : GradingState) (r : SubmissionRow)
    (h : knownVariant keys qmaps r = false) :
    processRow cfg variants keys qmaps st r =
      { st with warnings := st.warnings ++ [(pyStrip r.variant_id, r.student_id)] } := by
  rw [knownVariant, Bool.and_eq_false_iff] at h
  rw [processRow]
  rcases hk : keys.lookup (pyStrip r.variant_id) with _ | km <;>
    rcases hq : qmaps.lookup (pyStrip r.variant_id) with _ | qm <;> try rfl
  rw [hk, hq] at h
  simp at h

theorem foldl_processRow_lookup (cfg : Config) (variants : List Variant)
    (keys qmaps : List (String × List (String × String))) :
    ∀ (rows : List SubmissionRow) (st : GradingState) (sid : String),
      ((rows.foldl (processRow cfg variants keys qmaps) st).test_results.lookup sid)
        = match (rows.filter (fun r => knownVariant keys qmaps r
            && (r.student_id == sid))).getLast? with
          | some r => some (gradeOfRow cfg variants keys qmaps r)
          | none => st.test_results.lookup sid
  | [], st, sid => by simp
  | r :: rows, st, sid => by
    rw [List.foldl_cons, foldl_processRow_lookup cfg variants keys qmaps rows, List.filter_cons]
    rcases hp : (knownVariant keys qmaps r && (r.student_id == sid)) with _ | _
    · simp only [Bool.false_eq_true, if_false]
      have hst : (processRow cfg variants keys qmaps st r).test_results.lookup sid
          = st.test_results.lookup sid := by
        rcases hkn : knownVariant keys qmaps r with _ | _
        · rw [processRow_unknown cfg variants keys qmaps st r hkn]
        · rw [processRow_known cfg variants keys qmaps st r hkn]
          have hsid : (r.student_id == sid) = false := by
            rcases hx : (r.student_id == sid) with _ | _
            · rfl
            · rw [hkn, hx] at hp
              simp at hp
          rw [beq_eq_false_iff_ne] at hsid
          exact setResult_lookup_ne st.test_results r.student_id _ sid
            (fun he => hsid he.symm)
      rw [hst]
    · simp only [if_true]
      rcases hfr : (rows.filter (fun r => knownVariant keys qmaps r
          && (r.student_id == sid))) with _ | ⟨x, xs⟩
      · simp only [List.getLast?_nil, List.getLast?_singleton]
        have hkn : knownVariant keys qmaps r = true := by
          rcases hx : knownVariant keys qmaps r with _ | _
          · rw [hx] at hp
            simp at hp
          · rfl
        have hsid : (r.student_id == sid) = true := by
          rcases hx : (r.student_id == sid) with _ | _
          · rw [hkn, hx] at hp
            simp at hp
          · rfl
        rw [processRow_known cfg variants keys qmaps st r hkn]
        rw [beq_iff_eq] at hsid
        subst hsid
        exact setResult_lookup_self st.test_results r.student_id _
      · rw [List.getLast?_cons_cons]
        rcases hy : (x :: xs).getLast? with _ | y
        · simp at hy
        · rfl

theorem foldl_processRow_warnings (cfg : Config) (variants : List Variant)
    (keys qmaps : List (String × List (String × String))) :
    ∀ (rows : List SubmissionRow) (st : GradingState),
      (rows.foldl (processRow cfg variants keys qmaps) st).warnings
        = st.warnings ++ (rows.filter (fun r => !(knownVariant keys qmaps r))).map
            (fun r => (pyStrip r.variant_id, r.student_id))
  | [], st => by simp
  | r :: rows, st => by
    rw [List.foldl_cons, foldl_processRow_warnings cfg variants keys qmaps rows, List.filter_cons]
    rcases hkn : knownVariant keys qmaps r with _ | _
    · rw [processRow_unknown cfg variants keys qmaps st r hkn]
      simp [List.append_assoc]
    · rw [processRow_known cfg variants keys qmaps st r hkn]
      simp

theorem foldl_processRow_stats (cfg : Config) (variants : List Variant)
    (keys qmaps : List (String × List (String × String))) :
    ∀ (rows : List SubmissionRow) (st : GradingState),
      (rows.foldl (processRow cfg variants keys qmaps) st).question_stats
        = rows.foldl (fun acc r =>
            if knownVariant keys qmaps r then
              r.cells.foldl (gradeCellS ((keys.lookup (pyStrip r.variant_id)).getD [])
                ((qmaps.lookup (pyStrip r.variant_id)).getD [])) acc
            else acc) st.question_stats
  | [], st => by simp
  | r :: rows, st => by
    rw [List.foldl_cons, List.foldl_cons, foldl_processRow_stats cfg variants keys qmaps rows]
    rcases hkn : knownVariant keys qmaps r with _ | _
    · rw [processRow_unknown cfg variants keys qmaps st r hkn]
      simp [hkn]
    · rw [processRow_known cfg variants keys qmaps st r hkn]
      simp [hkn]

/-- C5: a submission row whose variant id is unknown to the registry (and
whose student id appears on no known-variant row) produces no entry in the
graded results; a warning naming its variant and student is emitted; and
every row with a known variant id is graded and present in the results.
The grading pass is a total function, so the unknown id is never fatal. -/
theorem C5_unknown_variant_skipped (cfg : Config) (variants : List Variant)
    (keys qmaps : List (String × List (String × String)))
    (rows : List SubmissionRow) (r : SubmissionRow)
    (hr : r ∈ rows) (hunk : knownVariant keys qmaps r = false)
    (hall : ∀ x ∈ rows, x.student_id = r.student_id →
      knownVariant keys qmaps x = false) :
    (correct_tests cfg variants keys qmaps rows).test_results.lookup r.student_id = none ∧
    (pyStrip r.variant_id, r.student_id) ∈
      (correct_tests cfg variants keys qmaps rows).warnings ∧
    ∀ x ∈ rows, knownVariant keys qmaps x = true →
      ((correct_tests cfg variants keys qmaps rows).test_results.lookup
        x.student_id).isSome = true := by
  refine ⟨?_, ?_, ?_⟩
  · rw [correct_tests, foldl_processRow_lookup]
    have hnil : rows.filter (fun x => knownVariant keys qmaps x
        && (x.student_id == r.student_id)) = [] := by
      rw [List.filter_eq_nil_iff]
      intro x hx
      rcases hb : (x.student_id == r.student_id) with _ | _
      · simp [hb]
      · rw [beq_iff_eq] at hb
        simp [hall x hx hb]
    rw [hnil]
    simp
  · rw [correct_tests, foldl_processRow_warnings]
    simp only [List.nil_append]
    exact List.mem_map_of_mem _ (List.mem_filter.mpr ⟨hr, by simp [hunk]⟩)
  · intro x hx hkx
    rw [correct_tests, foldl_processRow_lookup]
    have hmem : x ∈ rows.filter (fun y => knownVariant keys qmaps y
        && (y.student_id == x.student_id)) :=
      List.mem_filter.mpr ⟨hx, by simp [hkx]⟩
    rcases hy : (rows.filter (fun y => knownVariant keys qmaps y
        && (y.student_id == x.student_id))).getLast? with _ | y
    · rw [List.getLast?_eq_none_iff] at hy
      rw [hy] at hmem
      simp at hmem
    · rfl

def exC5keys : List (String × List (String × String)) := [("1", [("1", "A")])]

def exC5rows : List SubmissionRow :=
  [{ student_id := "s9", variant_id := "7", cells := [("1", some "A")] },
   { student_id := "s2", variant_id := "1", cells := [("1", some "A")] }]

/-- Witness for C5: a two-row submission set where the first row references
an unknown variant and the second a known one. -/
theorem C5_witness :
    ({ student_id := "s9", variant_id := "7",
       cells := [("1", some "A")] } : SubmissionRow) ∈ exC5rows ∧
    knownVariant exC5keys exC5keys
      { student_id := "s9", variant_id := "7", cells := [("1", some "A")] } = false ∧
    ((correct_tests exC4cfg [] exC5keys exC5keys exC5rows).test_results.lookup
      "s9" = none ∧
     (pyStrip "7", "s9") ∈ (correct_tests exC4cfg [] exC5keys exC5keys exC5rows).warnings ∧
     ∀ x ∈ exC5rows, knownVariant exC5keys exC5keys x = true →
       ((correct_tests exC4cfg [] exC5keys exC5keys exC5rows).test_results.lookup
         x.student_id).isSome = true) :=
  ⟨by decide, by decide,
   C5_unknown_variant_skipped exC4cfg [] exC5keys exC5keys exC5rows
     { student_id := "s9", variant_id := "7", cells := [("1", some "A")] }
     (by decide) (by decide) (by decide)⟩

/-- Total number of recorded per-question responses across all sheets. -/
def statTotal (stats : List (String × QStat)) : Nat :=
  (stats.map (fun p => p.2.correct + p.2.wrong + p.2.blank)).sum

/-- Number of answer columns of a row that are present in the registry
mappings of its variant (the columns that contribute one outcome each). -/
def presentCellCount (keys qmaps : List (String × List (String × String)))
    (r : SubmissionRow) : Nat :=
  r.cells.countP (fun c => (cellOutcome ((keys.lookup (pyStrip r.variant_id)).getD [])
    ((qmaps.lookup (pyStrip r.variant_id)).getD []) c).isSome)

theorem statTotal_bumpStats :
    ∀ (stats : List (String × QStat)) (sheet : String) (o : Outcome),
      statTotal (bumpStats stats sheet o) = statTotal stats + 1
  | [], sheet, o => by
    rcases o <;> simp [bumpStats, bumpQStat, statTotal]
  | (s, q) :: rest, sheet, o => by
    rw [bumpStats]
    rcases h : (s == sheet) with _ | _
    · simp only [Bool.false_eq_true, if_false]
      have ih := statTotal_bumpStats rest sheet o
      simp only [statTotal, List.map_cons, List.sum_cons] at *
      omega
    · simp only [if_true]
      rcases o <;> simp [statTotal, bumpQStat] <;> omega

theorem statTotal_gradeCellS (km qm : List (String × String))
    (stats : List (String × QStat)) (c : String × Option String) :
    statTotal (gradeCellS km qm stats c)
      = statTotal stats + (if (cellOutcome km qm c).isSome then 1 else 0) := by
  rw [gradeCellS, cellOutcome]
  rcases km.lookup c.1 with _ | L <;> rcases qm.lookup c.1 with _ | sheet <;>
    simp [statTotal_bumpStats]

theorem statTotal_foldl_gradeCellS (km qm : List (String × String)) :
    ∀ (cells : List (String × Option String)) (stats : List (String × QStat)),
      statTotal (cells.foldl (gradeCellS km qm) stats)
        = statTotal stats + cells.countP (fun c => (cellOutcome km qm c).isSome)
  | [], stats => by simp
  | c :: cs, stats => by
    rw [List.foldl_cons, statTotal_foldl_gradeCellS km qm cs,
      statTotal_gradeCellS, List.countP_cons]
    rcases h : (cellOutcome km qm c).isSome with _ | _
    · simp [h]
    · simp [h]
      omega

theorem statTotal_foldl_rows (cfg : Config) (variants : List Variant)
    (keys qmaps : List (String × List (String × String))) :
    ∀ (rows : List SubmissionRow) (st : GradingState),
      statTotal ((rows.foldl (processRow cfg variants keys qmaps) st).question_stats)
        = statTotal st.question_stats
          + (rows.map (fun r => if knownVariant keys qmaps r
              then presentCellCount keys qmaps r else 0)).sum
  | [], st => by simp
  | r :: rows, st => by
    rw [List.foldl_cons, statTotal_foldl_rows cfg variants keys qmaps rows,
      List.map_cons, List.sum_cons]
    rcases hkn : knownVariant keys qmaps r with _ | _
    · rw [processRow_unknown cfg variants keys qmaps st r hkn]
      simp
    · rw [processRow_known cfg variants keys qmaps st r hkn]
      simp only [if_true]
      have h := statTotal_foldl_gradeCellS
        ((keys.lookup (pyStrip r.variant_id)).getD [])
        ((qmaps.lookup (pyStrip r.variant_id)).getD []) r.cells st.question_stats
      simp only [h, presentCellCount]
      omega

/-- C10: when the submission sheet contains two rows for the same student,
both with known variant ids, and no later row carries that student id, the
per-student results keep exactly the grading of the later row (the earlier
grading is overwritten), while the per-question statistics accumulate the
contributions of every known-variant row: the total number of recorded
responses is the sum over all rows, including the overwritten one, so it is
at least the contribution of both duplicate rows together. -/
theorem C10_duplicate_student_rows (cfg : Config) (variants : List Variant)
    (keys qmaps : List (String × List (String × String)))
    (l1 l2 l3 : List SubmissionRow) (ra rb : SubmissionRow)
    (hsid : ra.student_id = rb.student_id)
    (hka : knownVariant keys qmaps ra = true)
    (hkb : knownVariant keys qmaps rb = true)
    (hlast : ∀ x ∈ l3, x.student_id ≠ rb.student_id) :
    (correct_tests cfg variants keys qmaps
        (l1 ++ ra :: (l2 ++ rb :: l3))).test_results.lookup rb.student_id
      = some (gradeOfRow cfg variants keys qmaps rb) ∧
    statTotal ((correct_tests cfg variants keys qmaps
        (l1 ++ ra :: (l2 ++ rb :: l3))).question_stats)
      = ((l1 ++ ra :: (l2 ++ rb :: l3)).map (fun r => if knownVariant keys qmaps r
          then presentCellCount keys qmaps r else 0)).sum ∧
    presentCellCount keys qmaps ra + presentCellCount keys qmaps rb ≤
      statTotal ((correct_tests cfg variants keys qmaps
        (l1 ++ ra :: (l2 ++ rb :: l3))).question_stats) := by
  have hstats : statTotal ((correct_tests cfg variants keys qmaps
      (l1 ++ ra :: (l2 ++ rb :: l3))).question_stats)
      = ((l1 ++ ra :: (l2 ++ rb :: l3)).map (fun r => if knownVariant keys qmaps r
          then presentCellCount keys qmaps r else 0)).sum := by
    rw [correct_tests, statTotal_foldl_rows]
    simp [statTotal]
  refine ⟨?_, hstats, ?_⟩
  · rw [correct_tests, foldl_processRow_lookup]
    have hpa : (knownVariant keys qmaps ra && (ra.student_id == rb.student_id)) = true := by
      simp [hka, hsid]
    have hpb : (knownVariant keys qmaps rb && (rb.student_id == rb.student_id)) = true := by
      simp [hkb]
    have h3 : l3.filter (fun y => knownVariant keys qmaps y
        && (y.student_id == rb.student_id)) = [] := by
      rw [List.filter_eq_nil_iff]
      intro x hx
      simp [hlast x hx]
    have hfilter : (l1 ++ ra :: (l2 ++ rb :: l3)).filter
        (fun y => knownVariant keys qmaps y && (y.student_id == rb.student_id))
        = (l1.filter (fun y => knownVariant keys qmaps y
            && (y.student_id == rb.student_id))
          ++ ra :: l2.filter (fun y => knownVariant keys qmaps y
            && (y.student_id == rb.student_id))) ++ [rb] := by
      simp [List.filter_append, List.filter_cons, hpa, hpb, h3, hka, hkb, hsid]
    rw [hfilter, List.getLast?_concat]
  · rw [hstats]
    simp only [List.map_append, List.sum_append, List.map_cons, List.sum_cons,
      hka, hkb, if_true]
    omega

def exC10ra : SubmissionRow :=
  { student_id := "s1", variant_id := "1", cells := [("1", some "B")] }

def exC10rb : SubmissionRow :=
  { student_id := "s1", variant_id := "1", cells := [("1", some "A")] }

/-- Witness for C10: the same student appears twice with a known variant;
the second row wins in the results, both rows feed the statistics. -/
theorem C10_witness :
    exC10ra.student_id = exC10rb.student_id ∧
    ((correct_tests exC4cfg [] exC5keys exC5keys
        ([] ++ exC10ra :: ([] ++ exC10rb :: []))).test_results.lookup exC10rb.student_id
      = some (gradeOfRow exC4cfg [] exC5keys exC5keys exC10rb) ∧
     statTotal ((correct_tests exC4cfg [] exC5keys exC5keys
        ([] ++ exC10ra :: ([] ++ exC10rb :: []))).question_stats)
      = (([] ++ exC10ra :: ([] ++ exC10rb :: [])).map
          (fun r => if knownVariant exC5keys exC5keys r
            then presentCellCount exC5keys exC5keys r else 0)).sum ∧
     presentCellCount exC5keys exC5keys exC10ra
       + presentCellCount exC5keys exC5keys exC10rb ≤
      statTotal ((correct_tests exC4cfg [] exC5keys exC5keys
        ([] ++ exC10ra :: ([] ++ exC10rb :: []))).question_stats)) :=
  ⟨rfl,
   C10_duplicate_student_rows exC4cfg [] exC5keys exC5keys [] [] [] exC10ra exC10rb
     rfl (by decide) (by decide) (by decide)⟩

/-- C6: for every question entry with at least one recorded answer, the
difficulty index computed by analyze_questions is 1 minus the number of
correct answers over the total recorded answers for that question (stored
rounded to two decimals, as in the source); the base counts are unchanged. -/
theorem C6_difficulty_index (s : AnalyzerState) (sheet : String) (qa : QAnalytics)
    (hmem : (sheet, qa) ∈ s.question_analytics)
    (htot : 0 < qa.base.correct + qa.base.wrong + qa.base.blank) :
    ∃ qa', (sheet, qa') ∈ (analyze_questions s).question_analytics ∧
      qa'.base = qa.base ∧
      qa'.difficulty = some (round2 (1 - (qa.base.correct : ℚ)
        / ((qa.base.correct + qa.base.wrong + qa.base.blank : ℕ) : ℚ))) := by
  have hne : ¬(s.question_analytics.isEmpty = true) := by
    rcases hq : s.question_analytics with _ | ⟨e, rest⟩
    · rw [hq] at hmem
      simp at hmem
    · simp
  rw [analyze_questions, if_neg hne]
  refine ⟨analyzeQuestionEntry s.test_results sheet qa, ?_, ?_, ?_⟩
  · exact List.mem_map_of_mem (fun p => (p.1, analyzeQuestionEntry s.test_results p.1 p.2)) hmem
  · simp only [analyzeQuestionEntry]
    rw [if_neg (by omega)]
  · simp only [analyzeQuestionEntry]
    rw [if_neg (by omega)]

def exC6qa : QAnalytics :=
  { base := { correct := 3, wrong := 1, blank := 1 }, total_answers := none,
    correct_pct := none, wrong_pct := none, blank_pct := none,
    difficulty := none, discrimination := none }

def exC6state : AnalyzerState :=
  { passing_threshold := 58 / 100, test_results := [],
    question_analytics := [("Alg", exC6qa)], analysis_results := none }

/-- Witness for C6 at a concrete question entry with five recorded answers. -/
theorem C6_witness :
    ("Alg", exC6qa) ∈ exC6state.question_analytics ∧
    0 < exC6qa.base.correct + exC6qa.base.wrong + exC6qa.base.blank ∧
    ∃ qa', ("Alg", qa') ∈ (analyze_questions exC6state).question_analytics ∧
      qa'.base = exC6qa.base ∧
      qa'.difficulty = some (round2 (1 - (exC6qa.base.correct : ℚ)
        / ((exC6qa.base.correct + exC6qa.base.wrong + exC6qa.base.blank : ℕ) : ℚ))) :=
  ⟨by decide, by decide,
   C6_difficulty_index exC6state "Alg" exC6qa (by decide) (by decide)⟩

theorem finishRow_percentage_guard (t : RowTally) (vid : String) :
    ((finishRow t vid).max_possible_score = 0 → (finishRow t vid).percentage = 0) ∧
    (0 < (finishRow t vid).max_possible_score →
      (finishRow t vid).percentage = round2 ((finishRow t vid).total_score
        / (finishRow t vid).max_possible_score * 100)) := by
  constructor
  · intro h
    have h0 : t.max_possible_score = 0 := h
    simp only [finishRow, h0]
    norm_num
  · intro h
    have h0 : 0 < t.max_possible_score := h
    simp only [finishRow]
    rw [if_pos h0]

theorem setResult_mem :
    ∀ (rs : List (String × GradedResult)) (sid : String) (g : GradedResult)
      (p : String × GradedResult), p ∈ setResult rs sid g → p ∈ rs ∨ p = (sid, g)
  | [], sid, g, p => by
    intro h
    simp only [setResult, List.mem_singleton] at h
    exact Or.inr h
  | (s, g0) :: rest, sid, g, p => by
    intro h
    rw [setResult] at h
    by_cases hs : (s == sid) = true
    · rw [if_pos hs] at h
      rcases List.mem_cons.mp h with h1 | h1
      · exact Or.inr h1
      · exact Or.inl (List.mem_cons_of_mem _ h1)
    · rw [if_neg hs] at h
      rcases List.mem_cons.mp h with h1 | h1
      · exact Or.inl (h1 ▸ List.mem_cons_self _ _)
      · rcases setResult_mem rest sid g p h1 with h2 | h2
        · exact Or.inl (List.mem_cons_of_mem _ h2)
        · exact Or.inr h2

theorem foldl_processRow_results_pct (cfg : Config) (variants : List Variant)
    (keys qmaps : List (String × List (String × String))) :
    ∀ (rows : List SubmissionRow) (st : GradingState),
      (∀ p ∈ st.test_results,
        (p.2.max_possible_score = 0 → p.2.percentage = 0) ∧
        (0 < p.2.max_possible_score →
          p.2.percentage = round2 (p.2.total_score / p.2.max_possible_score * 100))) →
      ∀ p ∈ (rows.foldl (processRow cfg variants keys qmaps) st).test_results,
        (p.2.max_possible_score = 0 → p.2.percentage = 0) ∧
        (0 < p.2.max_possible_score →
          p.2.percentage = round2 (p.2.total_score / p.2.max_possible_score * 100))
  | [], st => by
    intro h p hp
    exact h p hp
  | r :: rows, st => by
    intro h p hp
    rw [List.foldl_cons] at hp
    refine foldl_processRow_results_pct cfg variants keys qmaps rows _ ?_ p hp
    intro q hq
    rcases hkn : knownVariant keys qmaps r with _ | _
    · rw [processRow_unknown cfg variants keys qmaps st r hkn] at hq
      exact h q hq
    · rw [processRow_known cfg variants keys qmaps st r hkn] at hq
      rcases setResult_mem _ _ _ q hq with h1 | h1
      · exact h q h1
      · rw [h1]
        exact finishRow_percentage_guard _ _

theorem listVariancePop_const (l : List ℚ) (c : ℚ) (hne : l ≠ [])
    (hall : ∀ x ∈ l, x = c) : listVariancePop l = 0 := by
  have hlen : (l.length : ℚ) ≠ 0 := by
    simp only [ne_eq, Nat.cast_eq_zero, List.length_eq_zero]
    exact hne
  have hmean : listMean l = c := by
    rw [listMean, List.sum_eq_card_nsmul l c hall, nsmul_eq_mul]
    exact mul_div_cancel_left₀ c hlen
  have hzero : ∀ y ∈ l.map (fun x => (x - listMean l) ^ 2), y = 0 := by
    intro y hy
    rw [List.mem_map] at hy
    obtain ⟨x, hx, rfl⟩ := hy
    rw [hmean, hall x hx]
    ring
  rw [listVariancePop, List.sum_eq_card_nsmul _ 0 hzero, smul_zero, zero_div]

theorem zScoreOf_const (l : List ℚ) (c : ℚ) (hne : l ≠ [])
    (hall : ∀ x ∈ l, x = c) (x : ℚ) : zScoreOf l x = 0 := by
  rw [zScoreOf, if_pos]
  rw [npStd, listVariancePop_const l c hne hall]
  simp

/-- C7: the degenerate statistics guards short-circuit to 0. Every graded
student record satisfies: percentage is 0 when the maximum possible score
is 0, and otherwise equals total over maximum times 100 (rounded to two
decimals as in the source); and on a result set in which every total score
is the same value, the population standard deviation is 0 and analyze_results
assigns z-score 0 to every student without any division error (the
embedding is a total function). -/
theorem C7_degenerate_guards :
    (∀ (cfg : Config) (variants : List Variant)
      (keys qmaps : List (String × List (String × String)))
      (rows : List SubmissionRow),
      ∀ p ∈ (correct_tests cfg variants keys qmaps rows).test_results,
        (p.2.max_possible_score = 0 → p.2.percentage = 0) ∧
        (0 < p.2.max_possible_score →
          p.2.percentage = round2 (p.2.total_score / p.2.max_possible_score * 100))) ∧
    (∀ (s : AnalyzerState) (c : ℚ), s.test_results ≠ [] →
      (∀ p ∈ s.test_results, p.2.total_score = c) →
      ∀ p ∈ (analyze_results s).test_results, p.2.z_score = some 0) := by
  constructor
  · intro cfg variants keys qmaps rows p hp
    exact foldl_processRow_results_pct cfg variants keys qmaps rows _
      (by intro q hq; simp at hq) p hp
  · intro s c hne hall p hp
    have hniE : ¬(s.test_results.isEmpty = true) := by
      rcases h : s.test_results with _ | ⟨q, rest⟩
      · exact absurd h hne
      · simp
    rw [analyze_results, if_neg hniE] at hp
    simp only [List.mem_map] at hp
    obtain ⟨q, hq, rfl⟩ := hp
    have hscores : ∀ x ∈ s.test_results.map (fun p => p.2.total_score), x = c := by
      intro x hx
      rw [List.mem_map] at hx
      obtain ⟨y, hy, rfl⟩ := hx
      exact hall y hy
    have hsne : s.test_results.map (fun p => p.2.total_score) ≠ [] := by
      simp only [ne_eq, List.map_eq_nil_iff]
      exact hne
    show some (round2R (zScoreOf (s.test_results.map (fun p => p.2.total_score))
      q.2.total_score)) = some 0
    rw [zScoreOf_const _ c hsne hscores]
    simp [round2R]

def exC7g : GradedResult :=
  { correct_count := 1, wrong_count := 0, blank_count := 0,
    correct_score := 3, wrong_score := 0, blank_score := 0,
    total_score := 3, max_possible_score := 3, percentage := 100,
    answers := [], variant_id := "1", z_score := none,
    percentile := none, stanine := none }

def exC7state : AnalyzerState :=
  { passing_threshold := 58 / 100,
    test_results := [("a", exC7g), ("b", exC7g)],
    question_analytics := [], analysis_results := none }

/-- Witness for C7: the percentage guard instantiated at a concrete grading
run, and the z-score part at a concrete cohort in which both students score
3, so that the standard deviation is 0 and both z-scores are 0. -/
theorem C7_witness :
    (∀ p ∈ (correct_tests exC4cfg [] exC5keys exC5keys exC5rows).test_results,
      (p.2.max_possible_score = 0 → p.2.percentage = 0) ∧
      (0 < p.2.max_possible_score →
        p.2.percentage = round2 (p.2.total_score / p.2.max_possible_score * 100))) ∧
    exC7state.test_results ≠ [] ∧
    (∀ p ∈ exC7state.test_results, p.2.total_score = 3) ∧
    (∀ p ∈ (analyze_results exC7state).test_results, p.2.z_score = some 0) := by
  have h2 : exC7state.test_results ≠ [] := by
    intro h
    simp [exC7state] at h
  have h3 : ∀ p ∈ exC7state.test_results, p.2.total_score = 3 := by
    intro p hp
    rcases List.mem_cons.mp hp with h | h
    · rw [h]
      rfl
    · rcases List.mem_cons.mp h with h1 | h1
      · rw [h1]
        rfl
      · simp at h1
  exact ⟨C7_degenerate_guards.1 exC4cfg [] exC5keys exC5keys exC5rows, h2, h3,
    C7_degenerate_guards.2 exC7state 3 h2 h3⟩

theorem applyStudentAnalytics_comp (sc sc' : List ℚ) (r : GradedResult) :
    applyStudentAnalytics sc (applyStudentAnalytics sc' r) = applyStudentAnalytics sc r := rfl

theorem scores_map_apply (sc : List ℚ) (rs : List (String × GradedResult)) :
    (rs.map (fun p => (p.1, applyStudentAnalytics sc p.2))).map (fun q => q.2.total_score)
      = rs.map (fun q => q.2.total_score) := by
  rw [List.map_map]
  rfl

theorem map_apply_apply (sc sc' : List ℚ) (rs : List (String × GradedResult)) :
    (rs.map (fun p => (p.1, applyStudentAnalytics sc' p.2))).map
        (fun p => (p.1, applyStudentAnalytics sc p.2))
      = rs.map (fun p => (p.1, applyStudentAnalytics sc p.2)) := by
  rw [List.map_map]
  rfl

theorem computeAnalysisResults_map_apply (th : ℚ) (sc : List ℚ)
    (rs : List (String × GradedResult)) :
    computeAnalysisResults th (rs.map (fun p => (p.1, applyStudentAnalytics sc p.2)))
      = computeAnalysisResults th rs := by
  unfold computeAnalysisResults
  simp only [List.map_map, List.length_map, List.countP_map]
  rfl

theorem analyze_results_of_empty (s : AnalyzerState) (h : s.test_results = []) :
    analyze_results s = s := by
  rw [analyze_results, if_pos (by simp [h])]

theorem analyze_results_of_ne (s : AnalyzerState) (h : s.test_results.isEmpty = false) :
    analyze_results s = { s with
      analysis_results := some (computeAnalysisResults s.passing_threshold s.test_results),
      test_results := s.test_results.map (fun p => (p.1,
        applyStudentAnalytics (s.test_results.map (fun q => q.2.total_score)) p.2)) } := by
  rw [analyze_results, if_neg (by simp [h])]

theorem analyze_results_idem (s : AnalyzerState) :
    analyze_results (analyze_results s) = analyze_results s := by
  obtain ⟨th, tr, qa, ana⟩ := s
  rcases tr with _ | ⟨p0, rest⟩
  · rw [analyze_results_of_empty _ rfl, analyze_results_of_empty _ rfl]
  · rw [analyze_results_of_ne ⟨th, p0 :: rest, qa, ana⟩ rfl]
    rw [analyze_results_of_ne _ (by rfl)]
    simp only [AnalyzerState.mk.injEq, Option.some.injEq, true_and, and_true]
    constructor
    · rw [map_apply_apply, scores_map_apply]
    · rw [computeAnalysisResults_map_apply]

theorem analyze_questions_of_empty (s : AnalyzerState) (h : s.question_analytics = []) :
    analyze_questions s = s := by
  rw [analyze_questions, if_pos (by simp [h])]

theorem analyze_questions_of_ne (s : AnalyzerState)
    (h : s.question_analytics.isEmpty = false) :
    analyze_questions s = { s with
      question_analytics := s.question_analytics.map
        (fun p => (p.1, analyzeQuestionEntry s.test_results p.1 p.2)) } := by
  rw [analyze_questions, if_neg (by simp [h])]

theorem analyze_questions_test_results (s : AnalyzerState) :
    (analyze_questions s).test_results = s.test_results := by
  rw [analyze_questions]
  split <;> rfl

theorem analyze_results_question_analytics (s : AnalyzerState) :
    (analyze_results s).question_analytics = s.question_analytics := by
  rw [analyze_results]
  split <;> rfl

theorem analyzeQuestionEntry_base (rs : List (String × GradedResult)) (sheet : String)
    (qa : QAnalytics) : (analyzeQuestionEntry rs sheet qa).base = qa.base := by
  simp only [analyzeQuestionEntry]
  split <;> rfl

theorem analyzeQuestionEntry_congr_base (rs : List (String × GradedResult))
    (sheet : String) (qa qa' : QAnalytics) (hb : qa'.base = qa.base)
    (h : ¬(qa.base.correct + qa.base.wrong + qa.base.blank = 0)) :
    analyzeQuestionEntry rs sheet qa' = analyzeQuestionEntry rs sheet qa := by
  simp only [analyzeQuestionEntry, hb]
  rw [if_neg h, if_neg h]

theorem analyzeQuestionEntry_idem (rs : List (String × GradedResult)) (sheet : String)
    (qa : QAnalytics) :
    analyzeQuestionEntry rs sheet (analyzeQuestionEntry rs sheet qa)
      = analyzeQuestionEntry rs sheet qa := by
  by_cases h : qa.base.correct + qa.base.wrong + qa.base.blank = 0
  · have h1 : analyzeQuestionEntry rs sheet qa = qa := by
      simp only [analyzeQuestionEntry]
      rw [if_pos h]
    rw [h1, h1]
  · exact analyzeQuestionEntry_congr_base rs sheet qa _
      (analyzeQuestionEntry_base rs sheet qa) h

theorem analyze_questions_idem (s : AnalyzerState) :
    analyze_questions (analyze_questions s) = analyze_questions s := by
  obtain ⟨th, tr, qa, ana⟩ := s
  rcases qa with _ | ⟨e0, rest⟩
  · rw [analyze_questions_of_empty _ rfl, analyze_questions_of_empty _ rfl]
  · rw [analyze_questions_of_ne ⟨th, tr, e0 :: rest, ana⟩ rfl]
    rw [analyze_questions_of_ne _ (by rfl)]
    simp only [AnalyzerState.mk.injEq, true_and, and_true]
    rw [List.map_map]
    refine List.map_congr_left ?_
    intro p _
    show (p.1, analyzeQuestionEntry tr p.1 (analyzeQuestionEntry tr p.1 p.2))
      = (p.1, analyzeQuestionEntry tr p.1 p.2)
    rw [analyzeQuestionEntry_idem]

theorem sortStudents_map_apply (sc : List ℚ) (rs : List (String × GradedResult)) :
    sortStudentsByScoreDesc (rs.map (fun p => (p.1, applyStudentAnalytics sc p.2)))
      = (sortStudentsByScoreDesc rs).map (fun p => (p.1, applyStudentAnalytics sc p.2)) := by
  rw [sortStudentsByScoreDesc, sortStudentsByScoreDesc]
  refine Eq.symm ?_
  refine List.map_mergeSort ?_
  intro a _ b _
  rfl

theorem analyzeQuestionEntry_map_apply (sc : List ℚ) (rs : List (String × GradedResult))
    (sheet : String) (qa : QAnalytics) :
    analyzeQuestionEntry (rs.map (fun p => (p.1, applyStudentAnalytics sc p.2))) sheet qa
      = analyzeQuestionEntry rs sheet qa := by
  by_cases h : qa.base.correct + qa.base.wrong + qa.base.blank = 0
  · simp only [analyzeQuestionEntry]
    rw [if_pos h, if_pos h]
  · simp only [analyzeQuestionEntry]
    rw [if_neg h, if_neg h, sortStudents_map_apply]
    simp only [List.length_map, ← List.map_take, ← List.map_drop, List.countP_map]
    rfl

theorem ar_aq_comm (s : AnalyzerState) :
    analyze_results (analyze_questions s) = analyze_questions (analyze_results s) := by
  obtain ⟨th, tr, qa, ana⟩ := s
  rcases tr with _ | ⟨p0, r0⟩
  · rw [analyze_results_of_empty ⟨th, [], qa, ana⟩ rfl,
      analyze_results_of_empty _ (analyze_questions_test_results ⟨th, [], qa, ana⟩)]
  · rcases qa with _ | ⟨e0, rest⟩
    · rw [analyze_questions_of_empty ⟨th, p0 :: r0, [], ana⟩ rfl,
        analyze_questions_of_empty _
          (analyze_results_question_analytics ⟨th, p0 :: r0, [], ana⟩)]
    · rw [analyze_questions_of_ne ⟨th, p0 :: r0, e0 :: rest, ana⟩ rfl]
      rw [analyze_results_of_ne _ (by rfl)]
      rw [analyze_results_of_ne ⟨th, p0 :: r0, e0 :: rest, ana⟩ rfl]
      rw [analyze_questions_of_ne _ (by rfl)]
      simp only [AnalyzerState.mk.injEq, true_and, and_true]
      refine List.map_congr_left ?_
      intro p _
      show (p.1, analyzeQuestionEntry (p0 :: r0) p.1 p.2)
        = (p.1, analyzeQuestionEntry ((p0 :: r0).map (fun q => (q.1,
            applyStudentAnalytics (((p0 :: r0)).map (fun q => q.2.total_score)) q.2))) p.1 p.2)
      rw [analyzeQuestionEntry_map_apply]

/-- C9: both statistics passes are idempotent and so is the phase 2
analysis pipeline as a whole: re-running analyze_results, re-running
analyze_questions, or re-running the composed pipeline on an unchanged
graded state reproduces exactly the same state, including the aggregate
analysis_results, every per-student z-score, percentile and stanine, and
every per-question derived metric, with no hidden accumulation. -/
theorem C9_analysis_idempotent :
    (∀ s : AnalyzerState, analyze_results (analyze_results s) = analyze_results s) ∧
    (∀ s : AnalyzerState, analyze_questions (analyze_questions s) = analyze_questions s) ∧
    (∀ s : AnalyzerState,
      analyze_questions (analyze_results (analyze_questions (analyze_results s)))
        = analyze_questions (analyze_results s)) := by
  refine ⟨analyze_results_idem, analyze_questions_idem, ?_⟩
  intro s
  rw [ar_aq_comm (analyze_results s), analyze_results_idem, analyze_questions_idem]

end MCR
